import Mathlib

/-!
Shallow embedding of `src/ezh.h`, a fixed-layout binary writer with three
entry points: `writeToFile` (append to an output stream), `writeToRawMemory`
(copy into caller-owned memory through a `char*`), and `writeToBuffer`
(bounds-checked write into a `std::vector<char>` at an offset, delegating to
`writeToRawMemory`).

Values of non-pointer fundamental type are modelled by their in-memory byte
representation: the code never inspects a value, it only `memcpy`s or
`write`s its `sizeof` bytes.  Bytes are `Nat` (the value of each byte is
irrelevant to every claim), sizes are list lengths, and `size_t` arithmetic
is `Nat` arithmetic reduced `% 2 ^ 64` where the source computes in
fixed-width unsigned integers.
-/

namespace Ezh

/-- Error taxonomy of the writers.  The source throws `std::runtime_error`
with three distinct messages; the spec groups them as two kinds:
`invalidDestination` for "File stream is not open" (ezh.h line 32) and
"Null buffer pointer" (line 64), `capacityExceeded` for
"Buffer too small for data" (line 101). -/
inductive EzhError where
  | invalidDestination : EzhError
  | capacityExceeded : EzhError
deriving DecidableEq

/-- A non-pointer fundamental value, modelled as its raw in-memory byte
representation (`sizeof` bytes).  Every C++ fundamental type has
`sizeof >= 1`, hence the byte list is non-empty. -/
structure FValue where
  bytes : List Nat
  size_pos : bytes ≠ []

/-- Convenient constructor for concrete values: a value whose representation
is the non-empty byte list `b :: rest`. -/
def fval (b : Nat) (rest : List Nat) : FValue :=
  ⟨b :: rest, List.cons_ne_nil b rest⟩

/-- Models `sizeof(value)`: the width of the value's byte representation. -/
def FValue.size (v : FValue) : Nat := v.bytes.length

/-- Models `(sizeof(args) + ...)`: the summed byte sizes of a value pack. -/
def totalSize (args : List FValue) : Nat := (args.map FValue.size).sum

/-- The concatenated byte representations of a value pack, in argument
order: the exact output layout of a successful write. -/
def bytesJoin (args : List FValue) : List Nat := (args.map FValue.bytes).flatten

/-- Reduction modulo `2 ^ 64`: the behaviour of 64-bit `size_t` arithmetic
in the source. -/
def wrap64 (n : Nat) : Nat := n % 2 ^ 64

/-- Model of `std::ofstream`: the open/writable flag tested by `!file`,
and the bytes written to the stream so far. -/
structure OFStream where
  isOpen : Bool
  contents : List Nat
deriving DecidableEq

/-- Models the fold expression of `writeToFile` (ezh.h line 36): one
`file.write(reinterpret_cast<const char*>(&args), sizeof(args))` per value,
in argument order. -/
def streamWriteAll (file : OFStream) (args : List FValue) : OFStream :=
  args.foldl (fun f v => { f with contents := f.contents ++ v.bytes }) file

/-- Model of `writeToFile` (ezh.h lines 28-39): if `!file`, throw
(`invalidDestination`) before writing anything; otherwise append each
value's bytes in order and return the stream reference.  The pair returns
the post-call stream state together with the call outcome. -/
def writeToFile (file : OFStream) (args : List FValue) :
    OFStream × Except EzhError Unit :=
  if file.isOpen = false then
    (file, Except.error EzhError.invalidDestination)
  else
    (streamWriteAll file args, Except.ok ())

/-- Model of a `char*`: either the null pointer, or a pointer into a
caller-owned byte region at a given index. -/
inductive Ptr where
  | null : Ptr
  | valid (region : List Nat) (idx : Nat) : Ptr
deriving DecidableEq

/-- Pointer arithmetic `p + k`.  Arithmetic on the null pointer is
undefined behaviour in C++; it is modelled as remaining null. -/
def Ptr.add : Ptr → Nat → Ptr
  | Ptr.null, _ => Ptr.null
  | Ptr.valid region idx, k => Ptr.valid region (idx + k)

/-- Models `std::memcpy(ptr, &value, n)` at index `idx` of a byte region:
bytes `[idx, idx + n)` are replaced by `bs`.  The C++ call requires
`idx + bs.length` to be within the allocation (undefined behaviour
otherwise); the model totalises by splicing at the list end, and every
theorem about written contents carries the in-bounds hypothesis. -/
def memcpyAt (region : List Nat) (idx : Nat) (bs : List Nat) : List Nat :=
  region.take idx ++ bs ++ region.drop (idx + bs.length)

/-- Models the fold expression of `writeToRawMemory` (ezh.h line 68):
`((std::memcpy(ptr, &args, sizeof(args)), ptr += sizeof(args)), ...)` —
copy each value's bytes at the cursor, then advance the cursor, in
argument order.  Returns the final region contents and cursor. -/
def writeSeq : List Nat → Nat → List FValue → List Nat × Nat
  | region, idx, [] => (region, idx)
  | region, idx, v :: rest =>
      writeSeq (memcpyAt region idx v.bytes) (idx + v.bytes.length) rest

/-- Model of `writeToRawMemory` (ezh.h lines 60-71): if the pointer is
null, throw (`invalidDestination`) before any copy; otherwise copy each
value in order and return the pointer just past the last byte written. -/
def writeToRawMemory (ptr : Ptr) (args : List FValue) :
    Except EzhError (List Nat × Nat) :=
  match ptr with
  | Ptr.null => Except.error EzhError.invalidDestination
  | Ptr.valid region idx => Except.ok (writeSeq region idx args)

/-- Models `buffer.data()` for a `std::vector<char>`: a pointer to the
first element.  For an empty vector, `data()` may be null
(implementation-defined); the model takes it to be null. -/
def vectorData (buffer : List Nat) : Ptr :=
  if buffer.isEmpty then Ptr.null else Ptr.valid buffer 0

/-- Model of `writeToBuffer` (ezh.h lines 95-108): compute
`requiredSize = (sizeof(args) + ...)` in `size_t`, throw
`capacityExceeded` when `offset + requiredSize > buffer.size()` (the
comparison evaluated in mod-`2 ^ 64` unsigned arithmetic), otherwise
delegate to `writeToRawMemory(buffer.data() + offset, args...)` and return
the new offset `offset + requiredSize`.  The pair returns the post-call
buffer contents together with the call outcome. -/
def writeToBuffer (buffer : List Nat) (offset : Nat) (args : List FValue) :
    List Nat × Except EzhError Nat :=
  let requiredSize := wrap64 (totalSize args)
  if wrap64 (offset + requiredSize) > buffer.length then
    (buffer, Except.error EzhError.capacityExceeded)
  else
    match writeToRawMemory ((vectorData buffer).add offset) args with
    | Except.error e => (buffer, Except.error e)
    | Except.ok (newBuffer, _) =>
        (newBuffer, Except.ok (wrap64 (offset + requiredSize)))

/-- The slice of `len` bytes of a byte list starting at `start`: the bytes
a reader reinterprets. -/
def extract (l : List Nat) (start len : Nat) : List Nat :=
  (l.drop start).take len

/-- Reinterpreting a byte sequence back as values of the given widths, in
order: split off `s` bytes for each width `s`. -/
def readChunks : List Nat → List Nat → List (List Nat)
  | [], _ => []
  | s :: rest, bs => bs.take s :: readChunks rest (bs.drop s)

/-- A concrete 4-byte value: the `int` `42` of the spec's scenario. -/
def int42 : FValue := fval 42 [0, 0, 0]

/-- A concrete 4-byte value standing for the `float` `3.14f` of the spec's
scenario; the model tracks only widths and byte identity, so the particular
bytes of the IEEE-754 representation are arbitrary. -/
def float314 : FValue := fval 195 [245, 72, 64]

/-- A concrete open, writable output stream with nothing written yet. -/
def openStream : OFStream := ⟨true, []⟩

/-- A concrete unopened (or closed) output stream. -/
def closedStream : OFStream := ⟨false, []⟩

/-! ### Basic lemmas about the embedding -/

lemma wrap64_eq_of_lt {n : Nat} (h : n < 2 ^ 64) : wrap64 n = n :=
  Nat.mod_eq_of_lt h

lemma totalSize_nil : totalSize [] = 0 := rfl

lemma totalSize_cons (v : FValue) (rest : List FValue) :
    totalSize (v :: rest) = v.bytes.length + totalSize rest := by
  simp [totalSize, FValue.size]

lemma totalSize_pos (args : List FValue) (h : args ≠ []) :
    1 ≤ totalSize args := by
  cases args with
  | nil => exact absurd rfl h
  | cons v rest =>
      have hv : 1 ≤ v.bytes.length := List.length_pos.mpr v.size_pos
      rw [totalSize_cons]
      omega

lemma length_bytesJoin (args : List FValue) :
    (bytesJoin args).length = totalSize args := by
  simp only [bytesJoin, List.length_flatten, List.map_map, totalSize]
  rfl

lemma bytesJoin_nil : bytesJoin [] = [] := rfl

lemma bytesJoin_cons (v : FValue) (rest : List FValue) :
    bytesJoin (v :: rest) = v.bytes ++ bytesJoin rest := by
  simp [bytesJoin]

lemma memcpyAt_length (region : List Nat) (idx : Nat) (bs : List Nat)
    (h : idx + bs.length ≤ region.length) :
    (memcpyAt region idx bs).length = region.length := by
  simp only [memcpyAt, List.length_append, List.length_take, List.length_drop]
  omega

lemma memcpyAt_take (region : List Nat) (idx : Nat) (bs : List Nat)
    (h : idx ≤ region.length) :
    (memcpyAt region idx bs).take (idx + bs.length) =
      region.take idx ++ bs := by
  simp only [memcpyAt, List.take_append_eq_append_take, List.take_take,
    List.length_take]
  have h1 : min (idx + bs.length) idx = idx := by omega
  have h2 : min idx region.length = idx := by omega
  rw [h1, h2]
  have h3 : idx + bs.length - idx = bs.length := by omega
  rw [h3, List.take_length]
  simp only [List.length_append, List.length_take, h2]
  have h4 : (region.drop (idx + bs.length)).take
      (idx + bs.length - (idx + bs.length)) = [] := by
    simp
  rw [h4, List.append_nil]

lemma memcpyAt_drop (region : List Nat) (idx : Nat) (bs : List Nat)
    (h : idx ≤ region.length) (k : Nat) :
    (memcpyAt region idx bs).drop (idx + bs.length + k) =
      region.drop (idx + bs.length + k) := by
  simp only [memcpyAt, List.drop_append_eq_append_drop, List.length_take,
    List.length_drop, List.length_append]
  have h2 : min idx region.length = idx := by omega
  rw [h2]
  have h3 : (region.take idx).drop (idx + bs.length + k) = [] := by
    apply List.drop_eq_nil_of_le
    simp only [List.length_take]
    omega
  rw [h3]
  have h4 : idx + bs.length + k - idx = bs.length + k := by omega
  rw [h4]
  have h5 : bs.drop (bs.length + k) = [] := by
    apply List.drop_eq_nil_of_le
    omega
  rw [h5]
  have h6 : idx + bs.length + k - (idx + bs.length) = k := by omega
  rw [h6]
  simp only [List.nil_append, List.drop_drop]

/-- The fold of `writeToRawMemory` writes exactly the concatenated byte
representations into `[idx, idx + totalSize args)` of the region, leaves
the rest of the region untouched, and advances the cursor by the summed
sizes — provided the caller honours the capacity obligation. -/
lemma writeSeq_spec (args : List FValue) (region : List Nat) (idx : Nat)
    (h : idx + totalSize args ≤ region.length) :
    writeSeq region idx args =
      (region.take idx ++ bytesJoin args ++
        region.drop (idx + totalSize args), idx + totalSize args) := by
  induction args generalizing region idx with
  | nil =>
      simp [writeSeq, bytesJoin_nil, totalSize_nil, List.take_append_drop]
  | cons v rest ih =>
      have hsz := totalSize_cons v rest
      have hn : idx + v.bytes.length ≤ region.length := by omega
      have hlen : (memcpyAt region idx v.bytes).length = region.length :=
        memcpyAt_length region idx v.bytes hn
      have hih : (idx + v.bytes.length) + totalSize rest ≤
          (memcpyAt region idx v.bytes).length := by
        rw [hlen]; omega
      show writeSeq (memcpyAt region idx v.bytes) (idx + v.bytes.length) rest
          = _
      rw [ih _ _ hih]
      have htake : (memcpyAt region idx v.bytes).take (idx + v.bytes.length) =
          region.take idx ++ v.bytes :=
        memcpyAt_take region idx v.bytes (by omega)
      have hdrop : (memcpyAt region idx v.bytes).drop
            (idx + v.bytes.length + totalSize rest) =
          region.drop (idx + v.bytes.length + totalSize rest) :=
        memcpyAt_drop region idx v.bytes (by omega) (totalSize rest)
      rw [htake, hdrop, bytesJoin_cons, hsz]
      simp [List.append_assoc, Nat.add_assoc]

/-- Splitting the concatenated byte output back at the per-value widths
recovers each value's byte representation, in order. -/
lemma readChunks_bytesJoin (args : List FValue) :
    readChunks (args.map FValue.size) (bytesJoin args) =
      args.map FValue.bytes := by
  induction args with
  | nil => rfl
  | cons v rest ih =>
      simp only [List.map_cons, bytesJoin_cons, readChunks, FValue.size]
      rw [List.take_left, List.drop_left, ih]

lemma streamWriteAll_eq (file : OFStream) (args : List FValue) :
    streamWriteAll file args =
      { file with contents := file.contents ++ bytesJoin args } := by
  induction args generalizing file with
  | nil => simp [streamWriteAll, bytesJoin_nil]
  | cons v rest ih =>
      show streamWriteAll { file with contents := file.contents ++ v.bytes }
          rest = _
      rw [ih]
      simp [bytesJoin_cons, List.append_assoc]

/-- On an open stream, `writeToFile` succeeds and appends exactly the
concatenated byte representations. -/
lemma writeToFile_open (file : OFStream) (args : List FValue)
    (h : file.isOpen = true) :
    writeToFile file args =
      ({ file with contents := file.contents ++ bytesJoin args },
        Except.ok ()) := by
  have hne : ¬ file.isOpen = false := by simp [h]
  simp only [writeToFile, hne, if_false]
  rw [streamWriteAll_eq]
  simp [h]

/-- On a sufficiently large non-empty buffer with a representable offset,
`writeToBuffer` passes its capacity check, delegates through a non-null
pointer, splices the concatenated bytes into `[offset, offset + total)`,
and returns the advanced offset. -/
lemma writeToBuffer_eq_ok (buffer : List Nat) (offset : Nat)
    (args : List FValue) (hne : args ≠ [])
    (hfit : offset + totalSize args ≤ buffer.length)
    (hrep : offset + totalSize args < 2 ^ 64) :
    writeToBuffer buffer offset args =
      (buffer.take offset ++ bytesJoin args ++
        buffer.drop (offset + totalSize args),
        Except.ok (offset + totalSize args)) := by
  have htot : wrap64 (totalSize args) = totalSize args :=
    wrap64_eq_of_lt (by omega)
  have hsum : wrap64 (offset + wrap64 (totalSize args)) =
      offset + totalSize args := by
    rw [htot]; exact wrap64_eq_of_lt hrep
  have hpos : 1 ≤ totalSize args := totalSize_pos args hne
  have hbne : ¬ buffer.isEmpty := by
    cases buffer with
    | nil => simp at hfit; omega
    | cons b bs => simp
  have hcheck : ¬ wrap64 (offset + wrap64 (totalSize args)) > buffer.length := by
    rw [hsum]; omega
  have hvd : vectorData buffer = Ptr.valid buffer 0 := by
    unfold vectorData
    rw [if_neg hbne]
  simp only [writeToBuffer, hcheck, if_false, hvd, Ptr.add, writeToRawMemory]
  rw [writeSeq_spec args buffer (0 + offset) (by omega)]
  simp [hsum, Nat.zero_add]

/-- When the (wrapped) capacity check trips, `writeToBuffer` throws
`capacityExceeded` before any write: the buffer is returned untouched. -/
lemma writeToBuffer_eq_error (buffer : List Nat) (offset : Nat)
    (args : List FValue)
    (hover : buffer.length < offset + totalSize args)
    (hrep : offset + totalSize args < 2 ^ 64) :
    writeToBuffer buffer offset args =
      (buffer, Except.error EzhError.capacityExceeded) := by
  have htot : wrap64 (totalSize args) = totalSize args :=
    wrap64_eq_of_lt (by omega)
  have hsum : wrap64 (offset + wrap64 (totalSize args)) =
      offset + totalSize args := by
    rw [htot]; exact wrap64_eq_of_lt hrep
  have hcheck : wrap64 (offset + wrap64 (totalSize args)) > buffer.length := by
    rw [hsum]; omega
  simp only [writeToBuffer, hcheck, if_true]

lemma take_append_exact (A B : List Nat) (n : Nat) (h : A.length = n) :
    (A ++ B).take n = A := by
  subst h
  exact List.take_left A B

lemma drop_append_exact (A B : List Nat) (n : Nat) (h : A.length = n) :
    (A ++ B).drop n = B := by
  subst h
  exact List.drop_left A B

/-- Extracting `[i, i + totalSize args)` from a region into which the bytes
of `args` were spliced at `i` yields exactly the concatenated bytes. -/
lemma extract_spliced (l : List Nat) (i : Nat) (args : List FValue)
    (h : i ≤ l.length) :
    extract (l.take i ++ bytesJoin args ++ l.drop (i + totalSize args))
      i (totalSize args) = bytesJoin args := by
  have hA : (l.take i).length = i := by
    rw [List.length_take]; omega
  unfold extract
  rw [List.append_assoc, drop_append_exact _ _ i hA,
    take_append_exact _ _ _ (length_bytesJoin args)]

/-! ### Claim theorems -/

/-- C1: for every buffer, every offset with `0 ≤ offset ≤ buffer.length`,
and every non-empty representable value pack, when `offset` plus the summed
sizes exceeds `buffer.length` the buffer writer fails with
`CapacityExceeded` and leaves the buffer completely unmodified; and when
the payload fits exactly (or with room to spare) the write succeeds —
so a write of exactly `buffer.length - offset` bytes succeeds and a write
one byte larger fails with zero observable mutation. -/
theorem writeToBuffer_capacity_boundary
    (b1 : List Nat) (o1 : Nat) (a1 : List FValue)
    (h1off : o1 ≤ b1.length) (h1ne : a1 ≠ [])
    (h1over : b1.length < o1 + totalSize a1)
    (h1rep : o1 + totalSize a1 < 2 ^ 64)
    (b2 : List Nat) (o2 : Nat) (a2 : List FValue)
    (h2ne : a2 ≠ []) (h2fit : o2 + totalSize a2 ≤ b2.length)
    (h2rep : o2 + totalSize a2 < 2 ^ 64) :
    writeToBuffer b1 o1 a1 = (b1, Except.error EzhError.capacityExceeded) ∧
    (writeToBuffer b2 o2 a2).2 = Except.ok (o2 + totalSize a2) := by
  refine ⟨writeToBuffer_eq_error b1 o1 a1 h1over h1rep, ?_⟩
  rw [writeToBuffer_eq_ok b2 o2 a2 h2ne h2fit h2rep]

/-- Witness for C1 on the spec's 10-byte buffer: a 4-byte write at offset 7
(11 > 10) fails leaving the buffer untouched, while a 4-byte write at
offset 6 (exactly `buffer.length - offset` bytes) succeeds. -/
theorem writeToBuffer_capacity_boundary_witness :
    writeToBuffer (List.replicate 10 0) 7 [int42] =
      (List.replicate 10 0, Except.error EzhError.capacityExceeded) ∧
    (writeToBuffer (List.replicate 10 0) 6 [int42]).2 =
      Except.ok (6 + totalSize [int42]) :=
  writeToBuffer_capacity_boundary (List.replicate 10 0) 7 [int42]
    (by decide) (List.cons_ne_nil _ _) (by decide) (by decide)
    (List.replicate 10 0) 6 [int42]
    (List.cons_ne_nil _ _) (by decide) (by decide)

/-- C2: calling the stream writer on an unopened or closed stream fails
with `InvalidDestination` before any write: the stream state is returned
unchanged, so zero bytes are appended. -/
theorem writeToFile_closed_stream (file : OFStream) (args : List FValue)
    (h : file.isOpen = false) :
    writeToFile file args =
      (file, Except.error EzhError.invalidDestination) := by
  simp [writeToFile, h]

/-- Witness for C2: writing a value to a concrete closed stream fails with
`InvalidDestination` and appends nothing. -/
theorem writeToFile_closed_stream_witness :
    writeToFile closedStream [int42] =
      (closedStream, Except.error EzhError.invalidDestination) :=
  writeToFile_closed_stream closedStream [int42] rfl

/-- C3: whenever the summed byte size of a non-empty value pack fits, the
buffer writer succeeds and returns exactly `offset + required`, and this
returned offset never exceeds `buffer.length`. -/
theorem writeToBuffer_offset_monotonicity (buffer : List Nat) (offset : Nat)
    (args : List FValue) (hne : args ≠ [])
    (hfit : offset + totalSize args ≤ buffer.length)
    (hlen : buffer.length < 2 ^ 64) :
    (writeToBuffer buffer offset args).2 =
      Except.ok (offset + totalSize args) ∧
    offset + totalSize args ≤ buffer.length := by
  have hrep : offset + totalSize args < 2 ^ 64 := by omega
  rw [writeToBuffer_eq_ok buffer offset args hne hfit hrep]
  exact ⟨rfl, hfit⟩

/-- Witness for C3, the spec's scenario: a 10-byte buffer at offset 0,
writing a 4-byte `int` then a 4-byte `float`, returns new offset
`8 ≤ 10`. -/
theorem writeToBuffer_offset_monotonicity_witness :
    (writeToBuffer (List.replicate 10 0) 0 [int42, float314]).2 =
      Except.ok (0 + totalSize [int42, float314]) ∧
    0 + totalSize [int42, float314] ≤ (List.replicate 10 0).length :=
  writeToBuffer_offset_monotonicity (List.replicate 10 0) 0 [int42, float314]
    (List.cons_ne_nil _ _) (by decide) (by decide)

/-- C4: round-trip — after a successful write of an ordered value pack to
a stream, a raw memory region, or a buffer, splitting the written bytes
back at the same per-value widths, in the same order, reproduces every
value's byte representation exactly. -/
theorem roundTrip_all_destinations
    (file : OFStream) (hopen : file.isOpen = true)
    (region : List Nat) (idx : Nat)
    (buffer : List Nat) (offset : Nat) (args : List FValue)
    (hne : args ≠ [])
    (hmem : idx + totalSize args ≤ region.length)
    (hfit : offset + totalSize args ≤ buffer.length)
    (hrep : offset + totalSize args < 2 ^ 64) :
    readChunks (args.map FValue.size)
        ((writeToFile file args).1.contents.drop file.contents.length) =
      args.map FValue.bytes ∧
    readChunks (args.map FValue.size)
        (extract (writeSeq region idx args).1 idx (totalSize args)) =
      args.map FValue.bytes ∧
    readChunks (args.map FValue.size)
        (extract (writeToBuffer buffer offset args).1 offset
          (totalSize args)) =
      args.map FValue.bytes := by
  refine ⟨?_, ?_, ?_⟩
  · rw [writeToFile_open file args hopen]
    show readChunks _ ((file.contents ++ bytesJoin args).drop
      file.contents.length) = _
    rw [List.drop_left, readChunks_bytesJoin]
  · rw [writeSeq_spec args region idx hmem]
    show readChunks _ (extract (region.take idx ++ bytesJoin args ++
      region.drop (idx + totalSize args)) idx (totalSize args)) = _
    rw [extract_spliced region idx args (by omega), readChunks_bytesJoin]
  · rw [writeToBuffer_eq_ok buffer offset args hne hfit hrep]
    show readChunks _ (extract (buffer.take offset ++ bytesJoin args ++
      buffer.drop (offset + totalSize args)) offset (totalSize args)) = _
    rw [extract_spliced buffer offset args (by omega), readChunks_bytesJoin]

/-- Witness for C4: writing the `int`/`float` pair to a concrete open
stream, into an 8-byte region at index 0, and into a 10-byte buffer at
offset 2, then re-splitting at widths 4 and 4, recovers both values. -/
theorem roundTrip_all_destinations_witness :
    readChunks ([int42, float314].map FValue.size)
        ((writeToFile openStream [int42, float314]).1.contents.drop
          openStream.contents.length) =
      [int42, float314].map FValue.bytes ∧
    readChunks ([int42, float314].map FValue.size)
        (extract (writeSeq (List.replicate 8 9) 0 [int42, float314]).1 0
          (totalSize [int42, float314])) =
      [int42, float314].map FValue.bytes ∧
    readChunks ([int42, float314].map FValue.size)
        (extract (writeToBuffer (List.replicate 10 0) 2 [int42, float314]).1
          2 (totalSize [int42, float314])) =
      [int42, float314].map FValue.bytes :=
  roundTrip_all_destinations openStream rfl (List.replicate 8 9) 0
    (List.replicate 10 0) 2 [int42, float314]
    (List.cons_ne_nil _ _) (by decide) (by decide) (by decide)

/-- C5: on a non-null pointer honouring the caller's capacity obligation,
the raw-memory writer copies the values in argument order starting at the
destination and returns the pointer immediately past the last byte
written: the original position plus the summed byte sizes. -/
theorem writeToRawMemory_copies_and_advances (region : List Nat) (idx : Nat)
    (args : List FValue) (h : idx + totalSize args ≤ region.length) :
    writeToRawMemory (Ptr.valid region idx) args =
      Except.ok (region.take idx ++ bytesJoin args ++
        region.drop (idx + totalSize args), idx + totalSize args) := by
  simp only [writeToRawMemory]
  rw [writeSeq_spec args region idx h]

/-- Witness for C5: writing the 4-byte `int` at index 2 of an 8-byte
region splices its bytes at `[2, 6)` and returns position `2 + 4`. -/
theorem writeToRawMemory_copies_and_advances_witness :
    writeToRawMemory (Ptr.valid (List.replicate 8 9) 2) [int42] =
      Except.ok ((List.replicate 8 9).take 2 ++ bytesJoin [int42] ++
        (List.replicate 8 9).drop (2 + totalSize [int42]),
        2 + totalSize [int42]) :=
  writeToRawMemory_copies_and_advances (List.replicate 8 9) 2 [int42]
    (by decide)

/-- C6: the raw-memory writer called with a null destination pointer fails
with `InvalidDestination` before any copy: no memory state is produced or
touched. -/
theorem writeToRawMemory_null_rejected (args : List FValue) :
    writeToRawMemory Ptr.null args =
      Except.error EzhError.invalidDestination := rfl

/-- C7: a successful write emits exactly the concatenation of the values'
native byte representations in argument order — no padding, no framing —
and the total byte count equals the summed `sizeof`s: the stream grows by
exactly that many bytes and holds exactly the concatenation; the memory
region holds the concatenation at the write range and keeps its length. -/
theorem byte_layout_concatenation (file : OFStream) (args : List FValue)
    (hopen : file.isOpen = true)
    (region : List Nat) (idx : Nat)
    (hmem : idx + totalSize args ≤ region.length) :
    (bytesJoin args).length = totalSize args ∧
    (writeToFile file args).1.contents = file.contents ++ bytesJoin args ∧
    (writeToFile file args).1.contents.length =
      file.contents.length + totalSize args ∧
    extract (writeSeq region idx args).1 idx (totalSize args) =
      bytesJoin args ∧
    (writeSeq region idx args).1.length = region.length := by
  refine ⟨length_bytesJoin args, ?_, ?_, ?_, ?_⟩
  · rw [writeToFile_open file args hopen]
  · rw [writeToFile_open file args hopen]
    show (file.contents ++ bytesJoin args).length = _
    rw [List.length_append, length_bytesJoin]
  · rw [writeSeq_spec args region idx hmem]
    exact extract_spliced region idx args (by omega)
  · rw [writeSeq_spec args region idx hmem]
    show (region.take idx ++ bytesJoin args ++
      region.drop (idx + totalSize args)).length = _
    simp only [List.length_append, List.length_take, List.length_drop,
      length_bytesJoin]
    omega

/-- Witness for C7: writing the `int`/`float` pair to a concrete open
stream and into a 10-byte region at index 1. -/
theorem byte_layout_concatenation_witness :
    (bytesJoin [int42, float314]).length = totalSize [int42, float314] ∧
    (writeToFile openStream [int42, float314]).1.contents =
      openStream.contents ++ bytesJoin [int42, float314] ∧
    (writeToFile openStream [int42, float314]).1.contents.length =
      openStream.contents.length + totalSize [int42, float314] ∧
    extract (writeSeq (List.replicate 10 5) 1 [int42, float314]).1 1
      (totalSize [int42, float314]) = bytesJoin [int42, float314] ∧
    (writeSeq (List.replicate 10 5) 1 [int42, float314]).1.length =
      (List.replicate 10 5).length :=
  byte_layout_concatenation openStream [int42, float314] rfl
    (List.replicate 10 5) 1 (by decide)

/-- C8: the buffer writer never raises `InvalidDestination`: with a
non-empty value pack, whenever its capacity check passes the summed size
is at least 1, so the buffer is non-empty, `buffer.data()` is non-null,
and the null-pointer branch of the delegated raw-memory writer is
unreachable — the only possible error is `CapacityExceeded`. -/
theorem writeToBuffer_never_invalidDestination (buffer : List Nat)
    (offset : Nat) (args : List FValue) (hne : args ≠ [])
    (hrep : offset + totalSize args < 2 ^ 64) :
    (writeToBuffer buffer offset args).2 ≠
      Except.error EzhError.invalidDestination := by
  by_cases hc : offset + totalSize args ≤ buffer.length
  · rw [writeToBuffer_eq_ok buffer offset args hne hc hrep]
    simp
  · rw [writeToBuffer_eq_error buffer offset args (by omega) hrep]
    simp

/-- Witness for C8: an oversized write at offset 8 of a 10-byte buffer
fails, but not with `InvalidDestination`. -/
theorem writeToBuffer_never_invalidDestination_witness :
    (writeToBuffer (List.replicate 10 0) 8 [int42]).2 ≠
      Except.error EzhError.invalidDestination :=
  writeToBuffer_never_invalidDestination (List.replicate 10 0) 8 [int42]
    (List.cons_ne_nil _ _) (by decide)

/-- C9: the capacity comparison `offset + requiredSize > buffer.size()` is
evaluated in fixed-width unsigned (mod `2 ^ 64`) arithmetic, so at the
offset `2 ^ 64 - requiredSize` — strictly greater than `buffer.length` —
the sum wraps around to `0`, the check passes, and the buffer writer does
not raise `CapacityExceeded` even though the requested range lies entirely
outside the buffer. -/
theorem writeToBuffer_wraparound_check (buffer : List Nat)
    (args : List FValue) (hne : args ≠ [])
    (hlen : buffer.length + totalSize args < 2 ^ 64) :
    buffer.length < 2 ^ 64 - totalSize args ∧
    (writeToBuffer buffer (2 ^ 64 - totalSize args) args).2 ≠
      Except.error EzhError.capacityExceeded := by
  have hT : 1 ≤ totalSize args := totalSize_pos args hne
  refine ⟨by omega, ?_⟩
  have hoff : 2 ^ 64 - totalSize args + wrap64 (totalSize args) = 2 ^ 64 := by
    rw [wrap64_eq_of_lt (by omega : totalSize args < 2 ^ 64)]
    omega
  have hcheck : ¬ wrap64 (2 ^ 64 - totalSize args +
      wrap64 (totalSize args)) > buffer.length := by
    rw [hoff]
    unfold wrap64
    rw [Nat.mod_self]
    omega
  cases buffer with
  | nil =>
      simp only [writeToBuffer, hcheck, if_false, vectorData,
        List.isEmpty_nil, if_true, Ptr.add, writeToRawMemory]
      simp
  | cons b bs =>
      have hvd : vectorData (b :: bs) = Ptr.valid (b :: bs) 0 := by
        simp [vectorData]
      simp only [writeToBuffer, hcheck, if_false, hvd, Ptr.add,
        writeToRawMemory]
      simp

/-- Witness for C9: on the 10-byte buffer with the 4-byte `int`, the
offset `2 ^ 64 - 4` exceeds the buffer length yet the capacity check
wraps to `0` and no `CapacityExceeded` is raised. -/
theorem writeToBuffer_wraparound_check_witness :
    (List.replicate 10 0).length < 2 ^ 64 - totalSize [int42] ∧
    (writeToBuffer (List.replicate 10 0) (2 ^ 64 - totalSize [int42])
      [int42]).2 ≠ Except.error EzhError.capacityExceeded :=
  writeToBuffer_wraparound_check (List.replicate 10 0) [int42]
    (List.cons_ne_nil _ _) (by decide)

/-- C10: with zero value arguments, the raw-memory writer on a non-null
pointer writes nothing and returns the pointer unchanged, and the stream
writer on an open stream writes nothing and returns the same stream; the
destination-validity checks still run, so a null pointer or closed stream
still raises `InvalidDestination` even with nothing to write. -/
theorem zero_values_behaviour (region : List Nat) (idx : Nat)
    (f g : OFStream) (hopen : f.isOpen = true) (hclosed : g.isOpen = false) :
    writeToRawMemory (Ptr.valid region idx) [] = Except.ok (region, idx) ∧
    writeToRawMemory Ptr.null [] =
      Except.error EzhError.invalidDestination ∧
    writeToFile f [] = (f, Except.ok ()) ∧
    writeToFile g [] = (g, Except.error EzhError.invalidDestination) := by
  refine ⟨rfl, rfl, ?_, ?_⟩
  · rw [writeToFile_open f [] hopen]
    simp [bytesJoin_nil]
  · simp [writeToFile, hclosed]

/-- Witness for C10: zero-argument calls on a concrete region, the null
pointer, a concrete open stream and a concrete closed stream. -/
theorem zero_values_behaviour_witness :
    writeToRawMemory (Ptr.valid [5, 6] 1) [] = Except.ok ([5, 6], 1) ∧
    writeToRawMemory Ptr.null [] =
      Except.error EzhError.invalidDestination ∧
    writeToFile openStream [] = (openStream, Except.ok ()) ∧
    writeToFile closedStream []
      = (closedStream, Except.error EzhError.invalidDestination) :=
  zero_values_behaviour [5, 6] 1 openStream closedStream rfl rfl

end Ezh
